import Mathlib

/-!
Verification of the deployment-completion resolution pipeline of the
Sycord-pages repository.

The repository's five Python files are verification scripts.  Two of them
(src/verification/verify_backend_logic.py and
src/verification/verify_route_logic.py) contain the log-extraction code
itself, which is embedded below from that source.  The remaining
components (PlaceholderDetector, AutoFixLoop, DomainPoller,
DeploymentOrchestrator) live in application files the scripts inspect but
which are not part of the repository; those are modelled from the spec,
each such definition carrying a doc comment starting with
"Modelled from the spec:".
-/

/-- Models the character class of the regex token \s as used in
`re.search(r"Take a peek over at\s+(https://[^\s]+)", ...)`
(verify_backend_logic.py line 17, verify_route_logic.py line 12):
the ASCII whitespace characters.  (Python's \s additionally matches some
rarer Unicode whitespace; no character class in the transcripts at issue
depends on that.) -/
def pyIsSpace (c : Char) : Bool :=
  c == ' ' || c == '\t' || c == '\n' || c == '\r' || c == '\x0b' || c == '\x0c'

/-- The literal part of the success-marker regex:
"Take a peek over at" (verify_backend_logic.py line 17). -/
def peekMarker : List Char := "Take a peek over at".data

/-- The literal URL scheme part of the regex group `(https://[^\s]+)`. -/
def httpsLit : List Char := "https://".data

/-- Matching the regex `Take a peek over at\s+(https://[^\s]+)` anchored at
the start of `cs`, returning the capture group.  `\s+` must consume the
entire whitespace run (the following character is the non-whitespace `h`),
and `[^\s]+` greedily takes the maximal non-whitespace run, exactly as
Python's backtracking engine does. -/
def matchAt (cs : List Char) : Option (List Char) :=
  if peekMarker.isPrefixOf cs then
    let rest := cs.drop peekMarker.length
    let ws := rest.takeWhile pyIsSpace
    let rest2 := rest.dropWhile pyIsSpace
    if ws.isEmpty then none
    else if httpsLit.isPrefixOf rest2 then
      let tail := (rest2.drop httpsLit.length).takeWhile (fun c => !pyIsSpace c)
      if tail.isEmpty then none
      else some (httpsLit ++ tail)
    else none
  else none

/-- `re.search` semantics: try the pattern at every position from the left
and return the first (leftmost) match's capture group. -/
def searchPeek : List Char → Option (List Char)
  | [] => none
  | c :: cs =>
    match matchAt (c :: cs) with
    | some tok => some tok
    | none => searchPeek cs

/-- Python `str.strip()`: remove leading and trailing whitespace
(verify_backend_logic.py line 20, verify_route_logic.py line 14). -/
def pyStrip (cs : List Char) : List Char :=
  ((cs.dropWhile pyIsSpace).reverse.dropWhile pyIsSpace).reverse

/-- The backend script's trailing-period handling
(verify_backend_logic.py lines 21-22):
`if domain.endswith('.'): domain = domain[:-1]` — removes exactly one
trailing period when present. -/
def stripTrailingDot (cs : List Char) : List Char :=
  match cs.getLast? with
  | some '.' => cs.dropLast
  | _ => cs

/-- `"\n".join(logs)` (verify_backend_logic.py line 16,
verify_route_logic.py line 11), as the combined character sequence. -/
def combineLogs (logs : List String) : List Char :=
  (String.intercalate "\n" logs).data

/-- The module-level extraction of verify_backend_logic.py (lines 16-22):
search the combined transcript for the success-marker pattern, strip the
matched URL, and drop a single trailing period. -/
def extract_backend (logs : List String) : Option String :=
  (searchPeek (combineLogs logs)).map (fun g => String.mk (stripTrailingDot (pyStrip g)))

/-- `check_logs` of verify_route_logic.py (lines 10-15): search the
combined transcript for the success-marker pattern and return the stripped
match, or None. -/
def check_logs (logs : List String) : Option String :=
  (searchPeek (combineLogs logs)).map (fun g => String.mk (pyStrip g))

/-- Substring test (Python's `needle in haystack`), used to relate the
sentinel literal to the code fragments verify_logic_update.py requires. -/
def containsSub (needle : List Char) : List Char → Bool
  | [] => needle.isEmpty
  | c :: cs => needle.isPrefixOf (c :: cs) || containsSub needle cs

/-- The code fragments verify_logic_update.py (lines 14-21) requires in
app/api/deploy/route.ts: the synchronous-response sentinel comparison and
the fallback consultation of the log-extraction path. -/
def deployRouteChecks : List String :=
  ["if (domainData.domain === \"https://test.pages.dev\")",
   "const logDomain = await checkLogsForDomain(repoId)"]

/-- The code fragment verify_logic_update.py (lines 24-29) requires in
app/api/deploy/[repoId]/domain/route.ts: the polling endpoint's sentinel
comparison. -/
def domainRouteChecks : List String :=
  ["if (!domain || domain === \"https://test.pages.dev\")"]

/-- The code fragment verify_limits.py (lines 14-19) requires in
components/ai-website-builder.tsx: the auto-fix iteration cap check. -/
def iterationCheckLit : String := "if (iteration >= 15) \x7b"

/-- The code fragment verify_limits.py (lines 21-26) requires in
app/dashboard/sites/[id]/page.tsx: the polling attempt cap check. -/
def attemptsCheckLit : String := "if (attempts >= 40) return"

/-- Modelled from the spec: the placeholder sentinel value (spec section 6,
"a fixed string constant (https://test.pages.dev) shared between the
synchronous response check and the log-extraction path"); the hosting
integration code holding it is not in the repository, only the
verification script checking for its literal occurrences. -/
def placeholderSentinel : String := "https://test.pages.dev"

/-- Modelled from the spec: PlaceholderDetector (spec section 4.2) — the
implementation file is not in the repository.  "Given a domain string,
return true if it exactly equals the reserved sentinel value ..., else
false." -/
def isPlaceholder (d : String) : Bool := d == placeholderSentinel

/-- The deploy-attempt collaborator's result shape (spec section 6):
`{success: bool, domain: string, logLines: ordered sequence of string,
error?: string}`. -/
structure AttemptResult where
  success : Bool
  domain : String
  logLines : List String
  error : Option String
deriving DecidableEq

/-- Terminal outcome of the auto-fix loop (spec section 4.4). -/
inductive FixOutcome where
  | success : Nat → FixOutcome
  | failedTerminal : Option String → FixOutcome
deriving DecidableEq

/-- Modelled from the spec: the body of AutoFixLoop (spec section 4.4;
components/ai-website-builder.tsx is not in the repository — verify_limits.py
only checks it contains the guard recorded in `iterationCheckLit`).
`deploy i` is attempt number `i` (attempts are numbered from 1); on
failure the loop re-attempts unless the iteration count has reached 15,
in which case it surfaces the last error.  `rem` is the remaining
attempt budget, maintained as `i + rem = 16` from the entry point. -/
def autoFixGo (deploy : Nat → AttemptResult) : Nat → Nat → FixOutcome
  | _, 0 => FixOutcome.failedTerminal none
  | i, rem + 1 =>
    if (deploy i).success then FixOutcome.success i
    else if 15 ≤ i then FixOutcome.failedTerminal (deploy i).error
    else autoFixGo deploy (i + 1) rem

/-- Modelled from the spec: AutoFixLoop (spec section 4.4) — "drives up to
15 build/deploy attempts for a single generation job", starting at
attempt 1. -/
def autoFixLoop (deploy : Nat → AttemptResult) : FixOutcome :=
  autoFixGo deploy 1 15

/-- Terminal outcome of a polling session (spec section 4.3). -/
inductive PollOutcome where
  | resolved : String → PollOutcome
  | timedOut : PollOutcome
  | cancelled : PollOutcome
deriving DecidableEq

/-- Modelled from the spec: the body of DomainPoller (spec section 4.3;
app/dashboard/sites/[id]/page.tsx is not in the repository —
verify_limits.py only checks it contains the guard recorded in
`attemptsCheckLit`).  `status n` is the domain returned by the n-th
status query, `cancel n` says whether cancellation has been requested by
the time the n-th response is processed; `rem` is the remaining attempt
budget.  A tick whose response arrives after cancellation emits no
resolution even if the response carried a real domain. -/
def pollGo (status : Nat → String) (cancel : Nat → Bool) : Nat → Nat → PollOutcome
  | _, 0 => PollOutcome.timedOut
  | n, rem + 1 =>
    if cancel n then PollOutcome.cancelled
    else if isPlaceholder (status n) then pollGo status cancel (n + 1) rem
    else PollOutcome.resolved (status n)

/-- Modelled from the spec: DomainPoller (spec section 4.3) — "repeatedly
queries a status endpoint ... up to 40 attempts", queries numbered from 1. -/
def domainPoller (status : Nat → String) (cancel : Nat → Bool) : PollOutcome :=
  pollGo status cancel 1 40

/-- Number of status queries a polling session issues (a query whose
response is discarded by cancellation counts as issued). -/
def pollQueriesGo (status : Nat → String) (cancel : Nat → Bool) : Nat → Nat → Nat
  | _, 0 => 0
  | n, rem + 1 =>
    if cancel n then 1
    else if isPlaceholder (status n) then 1 + pollQueriesGo status cancel (n + 1) rem
    else 1

/-- Number of status queries issued by a full DomainPoller session. -/
def pollQueries (status : Nat → String) (cancel : Nat → Bool) : Nat :=
  pollQueriesGo status cancel 1 40

/-- Modelled from the spec: an external cancellation request arriving at
time `k` (spec section 5, "a poller session is cancellable; cancellation
must be idempotent"): from tick `k` on, the cancellation flag is set. -/
def requestCancel (cancel : Nat → Bool) (k : Nat) : Nat → Bool :=
  fun n => cancel n || k ≤ n

/-- The terminal events the orchestrator can report (spec section 6):
"resolved(domain), build-failed(error), or timed-out". -/
inductive TerminalEvent where
  | resolvedDomain : String → TerminalEvent
  | buildFailed : Option String → TerminalEvent
  | timedOut : TerminalEvent
deriving DecidableEq

/-- Result of one orchestrated deploy request: the terminal event reported
(none when the polling session was cancelled, which emits no resolution
event) and whether a DomainPoller session was started. -/
structure OrchestrationResult where
  event : Option TerminalEvent
  polled : Bool
deriving DecidableEq

/-- Modelled from the spec: the "extracted/returned domain" of spec
section 4.5 — the domain the orchestrator checks after a successful
attempt: the log-extraction result when the transcript has a match, else
the domain reported synchronously by the deploy response. -/
def effectiveDomain (a : AttemptResult) : String :=
  match extract_backend a.logLines with
  | some d => d
  | none => a.domain

/-- Modelled from the spec: DeploymentOrchestrator (spec section 4.5; the
route files it would live in are not in the repository).  Run AutoFixLoop;
on terminal failure report build-failed.  On success, take the
extracted/returned domain; if it fails the placeholder check record it as
resolved immediately, otherwise start a DomainPoller session and report
its terminal event (a cancelled session reports nothing). -/
def orchestrate (deploy : Nat → AttemptResult) (status : Nat → String)
    (cancel : Nat → Bool) : OrchestrationResult :=
  match autoFixLoop deploy with
  | FixOutcome.failedTerminal e => ⟨some (TerminalEvent.buildFailed e), false⟩
  | FixOutcome.success i =>
    let d := effectiveDomain (deploy i)
    if isPlaceholder d then
      match domainPoller status cancel with
      | PollOutcome.resolved rd => ⟨some (TerminalEvent.resolvedDomain rd), true⟩
      | PollOutcome.timedOut => ⟨some TerminalEvent.timedOut, true⟩
      | PollOutcome.cancelled => ⟨none, true⟩
    else ⟨some (TerminalEvent.resolvedDomain d), false⟩

/-- The resolved public URL record for a job (spec section 3):
"a `resolved: bool` flag distinguishing final from placeholder states". -/
structure DomainRecord where
  domain : String
  resolved : Bool
deriving DecidableEq

/-- Modelled from the spec: recording a candidate domain into a job's
DomainRecord (spec section 3: "starts placeholder, transitions at most
once to resolved (monotonic — never reverts to placeholder)"); a
placeholder candidate never resolves the record. -/
def applyResolution (r : DomainRecord) (d : String) : DomainRecord :=
  if r.resolved then r
  else if isPlaceholder d then r
  else ⟨d, true⟩

lemma isPrefixOf_append_self (xs ys : List Char) : xs.isPrefixOf (xs ++ ys) = true := by
  induction xs with
  | nil => simp [List.isPrefixOf]
  | cons a as ih => simp [List.isPrefixOf, ih]

lemma takeWhile_all (p : Char → Bool) (xs : List Char) (h : ∀ c ∈ xs, p c = true) :
    xs.takeWhile p = xs := by
  induction xs with
  | nil => rfl
  | cons a as ih =>
    rw [List.takeWhile_cons, h a (List.mem_cons_self a as)]
    exact congrArg (a :: ·) (ih fun c hc => h c (List.mem_cons_of_mem a hc))

lemma takeWhile_append_stop (p : Char → Bool) (xs : List Char) (y : Char) (ys : List Char)
    (hxs : ∀ c ∈ xs, p c = true) (hy : p y = false) :
    (xs ++ y :: ys).takeWhile p = xs := by
  induction xs with
  | nil => simp [List.takeWhile_cons, hy]
  | cons a as ih =>
    rw [List.cons_append, List.takeWhile_cons, hxs a (List.mem_cons_self a as)]
    exact congrArg (a :: ·) (ih fun c hc => hxs c (List.mem_cons_of_mem a hc))

lemma dropWhile_append_stop (p : Char → Bool) (xs : List Char) (y : Char) (ys : List Char)
    (hxs : ∀ c ∈ xs, p c = true) (hy : p y = false) :
    (xs ++ y :: ys).dropWhile p = y :: ys := by
  induction xs with
  | nil => simp [List.dropWhile_cons, hy]
  | cons a as ih =>
    rw [List.cons_append, List.dropWhile_cons, hxs a (List.mem_cons_self a as)]
    exact ih fun c hc => hxs c (List.mem_cons_of_mem a hc)

lemma dropWhile_all_neg (p : Char → Bool) (xs : List Char) (h : ∀ c ∈ xs, p c = false) :
    xs.dropWhile p = xs := by
  cases xs with
  | nil => rfl
  | cons a as => rw [List.dropWhile_cons, h a (List.mem_cons_self a as)]; simp

/-- A sequence all of whose characters are non-whitespace is unchanged by
Python's str.strip(). -/
lemma pyStrip_all_nonspace (xs : List Char) (h : ∀ c ∈ xs, pyIsSpace c = false) :
    pyStrip xs = xs := by
  unfold pyStrip
  rw [dropWhile_all_neg _ _ h,
    dropWhile_all_neg _ _ (fun c hc => h c (List.mem_reverse.mp hc)), List.reverse_reverse]

/-- The success-marker regex, matched at the very start of a sequence of
the decomposed form, yields the URL token: the whitespace run is consumed
whole by \s+ and the maximal non-whitespace run by [^\s]+. -/
lemma matchAt_full (ws t s : List Char)
    (hws1 : ws ≠ []) (hws2 : ∀ c ∈ ws, pyIsSpace c = true)
    (ht1 : t ≠ []) (ht2 : ∀ c ∈ t, pyIsSpace c = false)
    (hs : s = [] ∨ ∃ c s2, s = c :: s2 ∧ pyIsSpace c = true) :
    matchAt (peekMarker ++ (ws ++ (httpsLit ++ t ++ s))) = some (httpsLit ++ t) := by
  have hh : httpsLit ++ t ++ s = 'h' :: ("ttps://".data ++ t ++ s) := by rfl
  have hwt : (ws ++ (httpsLit ++ t ++ s)).takeWhile pyIsSpace = ws := by
    rw [hh]
    exact takeWhile_append_stop _ _ _ _ hws2 (by decide)
  have hwd : (ws ++ (httpsLit ++ t ++ s)).dropWhile pyIsSpace = httpsLit ++ t ++ s := by
    rw [hh]
    exact dropWhile_append_stop _ _ _ _ hws2 (by decide)
  have htw : (t ++ s).takeWhile (fun c => !pyIsSpace c) = t := by
    rcases hs with rfl | ⟨c, s2, rfl, hc⟩
    · rw [List.append_nil]
      exact takeWhile_all _ _ (fun c hc => by simp [ht2 c hc])
    · exact takeWhile_append_stop _ _ _ _ (fun c hc => by simp [ht2 c hc]) (by simp [hc])
  simp only [matchAt]
  rw [if_pos (isPrefixOf_append_self _ _), List.drop_left, hwt, hwd]
  rw [if_neg (by simpa [List.isEmpty_iff] using hws1)]
  rw [List.append_assoc httpsLit t s, if_pos (isPrefixOf_append_self _ _), List.drop_left, htw]
  rw [if_neg (by simpa [List.isEmpty_iff] using ht1)]

/-- If the marker literal is not a prefix of a position, the regex does not
match there. -/
lemma matchAt_none_of_no_marker (cs : List Char) (h : peekMarker.isPrefixOf cs = false) :
    matchAt cs = none := by
  unfold matchAt
  rw [h]
  simp

lemma searchPeek_cons_of_none (c : Char) (cs : List Char) (h : matchAt (c :: cs) = none) :
    searchPeek (c :: cs) = searchPeek cs := by
  simp [searchPeek, h]

lemma searchPeek_of_matchAt (cs tok : List Char) (hne : cs ≠ []) (h : matchAt cs = some tok) :
    searchPeek cs = some tok := by
  cases cs with
  | nil => exact absurd rfl hne
  | cons c cs => simp [searchPeek, h]

/-- Leftmost-search: positions where the pattern does not match are
skipped. -/
lemma searchPeek_skip (p rest : List Char)
    (h : ∀ i, i < p.length → matchAt ((p ++ rest).drop i) = none) :
    searchPeek (p ++ rest) = searchPeek rest := by
  induction p with
  | nil => rfl
  | cons c p ih =>
    have h0 : matchAt (c :: (p ++ rest)) = none := by
      simpa using h 0 (by simp)
    rw [List.cons_append, searchPeek_cons_of_none _ _ h0]
    exact ih fun i hi => by simpa using h (i + 1) (by simpa using Nat.succ_lt_succ hi)

/-- The full leftmost-match characterisation of the extraction regex: when
the transcript decomposes as an inert region `p` (the marker phrase starts
nowhere inside it), then the marker, a nonempty whitespace run, the URL
token `https:// ++ t`, and a remainder that is empty or starts with
whitespace, the search returns exactly that token. -/
lemma searchPeek_decomp (p ws t s : List Char)
    (hp : ∀ i, i < p.length →
      peekMarker.isPrefixOf ((p ++ (peekMarker ++ (ws ++ (httpsLit ++ t ++ s)))).drop i) = false)
    (hws1 : ws ≠ []) (hws2 : ∀ c ∈ ws, pyIsSpace c = true)
    (ht1 : t ≠ []) (ht2 : ∀ c ∈ t, pyIsSpace c = false)
    (hs : s = [] ∨ ∃ c s2, s = c :: s2 ∧ pyIsSpace c = true) :
    searchPeek (p ++ (peekMarker ++ (ws ++ (httpsLit ++ t ++ s)))) = some (httpsLit ++ t) := by
  rw [searchPeek_skip p _ (fun i hi => matchAt_none_of_no_marker _ (hp i hi))]
  exact searchPeek_of_matchAt _ _ (by simp [peekMarker]) (matchAt_full ws t s hws1 hws2 ht1 ht2 hs)

/-- If the marker phrase occurs nowhere in the transcript (as a substring),
the regex search finds nothing. -/
lemma searchPeek_none_of_no_marker (cs : List Char)
    (h : containsSub peekMarker cs = false) :
    searchPeek cs = none := by
  induction cs with
  | nil => rfl
  | cons c cs ih =>
    rw [containsSub, Bool.or_eq_false_iff] at h
    rw [searchPeek_cons_of_none _ _ (matchAt_none_of_no_marker _ h.1)]
    exact ih h.2

/-- A successful auto-fix run reports the attempt number that succeeded,
inside the attempted window. -/
lemma autoFixGo_success_bound (d : Nat → AttemptResult) :
    ∀ rem i j, autoFixGo d i rem = FixOutcome.success j →
      i ≤ j ∧ j < i + rem ∧ (d j).success = true := by
  intro rem
  induction rem with
  | zero => intro i j h; simp [autoFixGo] at h
  | succ rem ih =>
    intro i j h
    rw [autoFixGo] at h
    by_cases hs : (d i).success
    · rw [if_pos hs] at h
      cases h
      exact ⟨Nat.le_refl _, by omega, hs⟩
    · rw [if_neg hs] at h
      by_cases hi : 15 ≤ i
      · rw [if_pos hi] at h; cases h
      · rw [if_neg hi] at h
        obtain ⟨h1, h2, h3⟩ := ih (i + 1) j h
        exact ⟨by omega, by omega, h3⟩

/-- If every attempt in the window fails and the window ends at attempt 15,
the auto-fix run terminates with the error of attempt 15. -/
lemma autoFixGo_all_fail (d : Nat → AttemptResult) :
    ∀ rem i, i + rem = 16 → 1 ≤ i → i ≤ 15 →
      (∀ k, i ≤ k → k ≤ 15 → (d k).success = false) →
      autoFixGo d i rem = FixOutcome.failedTerminal (d 15).error := by
  intro rem
  induction rem with
  | zero => intro i h1 _ h3 _; omega
  | succ rem ih =>
    intro i h1 h2 h3 hf
    rw [autoFixGo, if_neg (by simp [hf i (Nat.le_refl i) h3])]
    by_cases hi : 15 ≤ i
    · have : i = 15 := by omega
      subst this
      rw [if_pos hi]
    · rw [if_neg hi]
      exact ih (i + 1) (by omega) (by omega) (by omega)
        (fun k hk1 hk2 => hf k (by omega) hk2)

/-- If every attempt before 15 fails and attempt 15 succeeds, the auto-fix
run reports success at attempt 15. -/
lemma autoFixGo_late_success (d : Nat → AttemptResult) :
    ∀ rem i, i + rem = 16 → 1 ≤ i → i ≤ 15 →
      (∀ k, k ≤ 14 → (d k).success = false) → (d 15).success = true →
      autoFixGo d i rem = FixOutcome.success 15 := by
  intro rem
  induction rem with
  | zero => intro i h1 _ h3 _ _; omega
  | succ rem ih =>
    intro i h1 h2 h3 hf hs
    by_cases hi : i = 15
    · subst hi
      rw [autoFixGo, if_pos hs]
    · rw [autoFixGo, if_neg (by simp [hf i (by omega)]), if_neg (by omega)]
      exact ih (i + 1) (by omega) (by omega) (by omega) hf hs

/-- The auto-fix run only consults attempts inside its window. -/
lemma autoFixGo_frame (d d' : Nat → AttemptResult) :
    ∀ rem i, (∀ k, i ≤ k → k < i + rem → d k = d' k) →
      autoFixGo d i rem = autoFixGo d' i rem := by
  intro rem
  induction rem with
  | zero => intro i _; rfl
  | succ rem ih =>
    intro i h
    have hi : d i = d' i := h i (Nat.le_refl i) (by omega)
    rw [autoFixGo, autoFixGo, hi]
    by_cases hs : (d' i).success
    · rw [if_pos hs, if_pos hs]
    · rw [if_neg hs, if_neg hs]
      by_cases h15 : 15 ≤ i
      · rw [if_pos h15, if_pos h15]
      · rw [if_neg h15, if_neg h15]
        exact ih (i + 1) (fun k hk1 hk2 => h k (by omega) (by omega))

/-- A resolution is only emitted for a query inside the window whose
response was a real (non-placeholder) domain processed while cancellation
was not yet requested. -/
lemma pollGo_resolved (s : Nat → String) (c : Nat → Bool) :
    ∀ rem n d, pollGo s c n rem = PollOutcome.resolved d →
      ∃ m, n ≤ m ∧ m < n + rem ∧ c m = false ∧ isPlaceholder (s m) = false ∧ s m = d := by
  intro rem
  induction rem with
  | zero => intro n d h; simp [pollGo] at h
  | succ rem ih =>
    intro n d h
    rw [pollGo] at h
    by_cases hc : c n
    · rw [if_pos hc] at h; cases h
    · rw [if_neg hc] at h
      by_cases hp : isPlaceholder (s n)
      · rw [if_pos hp] at h
        obtain ⟨m, h1, h2, h3, h4, h5⟩ := ih (n + 1) d h
        exact ⟨m, by omega, by omega, h3, h4, h5⟩
      · rw [if_neg hp] at h
        cases h
        exact ⟨n, Nat.le_refl n, by omega, by simpa using hc, by simpa using hp, rfl⟩

/-- A polling session issues at most as many queries as its attempt
budget. -/
lemma pollQueriesGo_le (s : Nat → String) (c : Nat → Bool) :
    ∀ rem n, pollQueriesGo s c n rem ≤ rem := by
  intro rem
  induction rem with
  | zero => intro n; simp [pollQueriesGo]
  | succ rem ih =>
    intro n
    rw [pollQueriesGo]
    by_cases hc : c n
    · rw [if_pos hc]; omega
    · rw [if_neg hc]
      by_cases hp : isPlaceholder (s n)
      · rw [if_pos hp]
        have := ih (n + 1)
        omega
      · rw [if_neg hp]; omega

/-- Under an always-placeholder status source and no cancellation, the
session exhausts its budget and times out. -/
lemma pollGo_all_placeholder (s : Nat → String) (c : Nat → Bool)
    (hs : ∀ m, isPlaceholder (s m) = true) (hc : ∀ m, c m = false) :
    ∀ rem n, pollGo s c n rem = PollOutcome.timedOut ∧ pollQueriesGo s c n rem = rem := by
  intro rem
  induction rem with
  | zero => intro n; exact ⟨rfl, rfl⟩
  | succ rem ih =>
    intro n
    rw [pollGo, pollQueriesGo, if_neg (by simp [hc n] : ¬ c n = true),
      if_neg (by simp [hc n] : ¬ c n = true), if_pos (hs n), if_pos (hs n)]
    exact ⟨(ih (n + 1)).1, by rw [(ih (n + 1)).2]; omega⟩

/-- The polling loop only depends on the pointwise values of the
cancellation flag. -/
lemma pollGo_congr (s : Nat → String) (c c' : Nat → Bool) (h : ∀ m, c m = c' m) :
    ∀ rem n, pollGo s c n rem = pollGo s c' n rem := by
  intro rem
  induction rem with
  | zero => intro n; rfl
  | succ rem ih =>
    intro n
    rw [pollGo, pollGo, h n]
    by_cases hc : c' n
    · rw [if_pos hc, if_pos hc]
    · rw [if_neg hc, if_neg hc]
      by_cases hp : isPlaceholder (s n)
      · rw [if_pos hp, if_pos hp]
        exact ih (n + 1)
      · rw [if_neg hp, if_neg hp]

/-- The backend's trailing-period handling leaves a token alone when it
does not end in a period. -/
lemma stripTrailingDot_eq_self (cs : List Char) (h : cs.getLast? ≠ some '.') :
    stripTrailingDot cs = cs := by
  unfold stripTrailingDot
  split
  · next heq => exact absurd heq h
  · rfl

/-- The backend's trailing-period handling removes exactly the final
period of a token ending in one. -/
lemma stripTrailingDot_concat_dot (xs : List Char) :
    stripTrailingDot (xs ++ ['.']) = xs := by
  unfold stripTrailingDot
  rw [List.getLast?_concat]
  exact List.dropLast_concat

/-- The characters of the URL scheme literal are not whitespace. -/
lemma httpsLit_nonspace : ∀ c ∈ httpsLit, pyIsSpace c = false := by decide

/-- If the auto-fix loop succeeded and the extracted/returned domain is a
placeholder, the orchestrator starts a polling session. -/
lemma orchestrate_polled_of_placeholder (deploy : Nat → AttemptResult)
    (status : Nat → String) (cancel : Nat → Bool) (i : Nat)
    (hsuc : autoFixLoop deploy = FixOutcome.success i)
    (hph : isPlaceholder (effectiveDomain (deploy i)) = true) :
    (orchestrate deploy status cancel).polled = true := by
  rw [orchestrate, hsuc]
  simp only [hph, if_true]
  cases domainPoller status cancel <;> rfl

/-- If the auto-fix loop succeeded and no polling session was started, the
extracted/returned domain passed the placeholder check. -/
lemma orchestrate_not_polled (deploy : Nat → AttemptResult)
    (status : Nat → String) (cancel : Nat → Bool) (i : Nat)
    (hsuc : autoFixLoop deploy = FixOutcome.success i)
    (h : (orchestrate deploy status cancel).polled = false) :
    isPlaceholder (effectiveDomain (deploy i)) = false := by
  rw [orchestrate, hsuc] at h
  by_cases hph : isPlaceholder (effectiveDomain (deploy i))
  · exfalso
    simp only [hph, if_true] at h
    cases hpoll : domainPoller status cancel <;> rw [hpoll] at h <;> exact absurd h (by simp)
  · simpa using hph

/-- Any domain the orchestrator reports as resolved passed the placeholder
check: the immediate branch checks it, and a polling session only resolves
on a non-placeholder response. -/
lemma orchestrate_resolved_not_placeholder (deploy : Nat → AttemptResult)
    (status : Nat → String) (cancel : Nat → Bool) (d : String)
    (h : (orchestrate deploy status cancel).event
      = some (TerminalEvent.resolvedDomain d)) :
    isPlaceholder d = false := by
  rw [orchestrate] at h
  cases hfix : autoFixLoop deploy with
  | failedTerminal e => rw [hfix] at h; simp at h
  | success i =>
    rw [hfix] at h
    by_cases hph : isPlaceholder (effectiveDomain (deploy i))
    · simp only [hph, if_true] at h
      cases hpoll : domainPoller status cancel with
      | resolved rd =>
        rw [hpoll] at h
        simp only [Option.some_inj, TerminalEvent.resolvedDomain.injEq] at h
        obtain ⟨m, _, _, _, hm, hd⟩ := pollGo_resolved status cancel 40 1 rd hpoll
        rw [← h, ← hd]
        exact hm
      | timedOut => rw [hpoll] at h; simp at h
      | cancelled => rw [hpoll] at h; simp at h
    · simp only [hph, if_false, Bool.false_eq_true] at h
      simp only [Option.some_inj, TerminalEvent.resolvedDomain.injEq] at h
      rw [← h]
      simpa using hph

/-- Claim C1, counterexample: this transcript contains exactly one
occurrence of the success-marker phrase followed by whitespace and the
https:// URL token "https://x,"; the claim says the extractor returns that
URL with trailing punctuation stripped ("https://x"), but the code strips
only a trailing period, so the comma survives. -/
theorem c1_counterexample :
    extract_backend ["Take a peek over at https://x,"] = some "https://x," ∧
      ("https://x," : String) ≠ "https://x" := by
  exact ⟨by decide, by decide⟩

/-- Claim C1 (amended: only a single trailing period is stripped from the
matched URL token, not arbitrary trailing punctuation): for every log
transcript whose newline-joined form consists of an inert region in which
the marker phrase starts nowhere, then the marker phrase, nonempty
whitespace, an https:// URL token, and a remainder that is empty or
starts with whitespace, the backend extraction returns that URL token
with a single trailing period stripped — regardless of the surrounding
unrelated lines; and on the Scenario A transcript it returns
https://abcd1234.test-bdc.pages.dev. -/
theorem c1_log_extraction :
    (∀ (logs : List String) (p ws t s : List Char),
      combineLogs logs = p ++ (peekMarker ++ (ws ++ (httpsLit ++ t ++ s))) →
      (∀ i, i < p.length →
        peekMarker.isPrefixOf
          ((p ++ (peekMarker ++ (ws ++ (httpsLit ++ t ++ s)))).drop i) = false) →
      ws ≠ [] → (∀ c ∈ ws, pyIsSpace c = true) →
      t ≠ [] → (∀ c ∈ t, pyIsSpace c = false) →
      (s = [] ∨ ∃ c s2, s = c :: s2 ∧ pyIsSpace c = true) →
      extract_backend logs = some (String.mk (stripTrailingDot (httpsLit ++ t)))) ∧
    extract_backend
      ["...",
       "✨ Deployment complete! Take a peek over at https://abcd1234.test-bdc.pages.dev",
       "Cleaned up..."] = some "https://abcd1234.test-bdc.pages.dev" := by
  constructor
  · intro logs p ws t s hcomb hp hws1 hws2 ht1 ht2 hs
    rw [extract_backend, hcomb, searchPeek_decomp p ws t s hp hws1 hws2 ht1 ht2 hs]
    rw [Option.map_some', pyStrip_all_nonspace]
    intro c hc
    rcases List.mem_append.mp hc with h | h
    · exact httpsLit_nonspace c h
    · exact ht2 c h
  · decide

/-- Claim C1 witness: the amended general statement applied to the
one-line transcript "Take a peek over at https://w". -/
theorem c1_log_extraction_witness :
    extract_backend ["Take a peek over at https://w"]
      = some (String.mk (stripTrailingDot (httpsLit ++ "w".data))) :=
  c1_log_extraction.1 ["Take a peek over at https://w"] [] [' '] "w".data []
    (by decide) (by decide) (by decide) (by decide) (by decide) (by decide) (Or.inl rfl)

/-- Claim C2, counterexample: the matched URL token "https://x.." ends in
two periods; the claim says the result has no trailing period, but the
code removes only one, so the result still ends with a period. -/
theorem c2_counterexample :
    extract_backend ["Take a peek over at https://x.."] = some "https://x." ∧
      ("https://x." : String).data.getLast? = some '.' := by
  exact ⟨by decide, by decide⟩

/-- Claim C2 (amended: exactly one trailing period is stripped, so the
result is period-free precisely when the token ends in a single period):
for every transcript decomposing as an inert region, the marker phrase,
whitespace, an https:// URL token ending in exactly one period, and a
remainder (which may itself contain further marker occurrences — the
extraction returns the first match in transcript order), the backend
extraction returns that first token without its final period, and the
result has no trailing period. -/
theorem c2_first_match :
    ∀ (logs : List String) (p ws t s : List Char),
      combineLogs logs = p ++ (peekMarker ++ (ws ++ (httpsLit ++ (t ++ ['.']) ++ s))) →
      (∀ i, i < p.length →
        peekMarker.isPrefixOf
          ((p ++ (peekMarker ++ (ws ++ (httpsLit ++ (t ++ ['.']) ++ s)))).drop i) = false) →
      ws ≠ [] → (∀ c ∈ ws, pyIsSpace c = true) →
      t ≠ [] → (∀ c ∈ t, pyIsSpace c = false) → t.getLast? ≠ some '.' →
      (s = [] ∨ ∃ c s2, s = c :: s2 ∧ pyIsSpace c = true) →
      extract_backend logs = some (String.mk (httpsLit ++ t)) ∧
        (httpsLit ++ t).getLast? ≠ some '.' := by
  intro logs p ws t s hcomb hp hws1 hws2 ht1 ht2 htd hs
  have ht2' : ∀ c ∈ t ++ ['.'], pyIsSpace c = false := by
    intro c hc
    rcases List.mem_append.mp hc with h | h
    · exact ht2 c h
    · simp at h
      subst h
      decide
  constructor
  · rw [extract_backend, hcomb,
      searchPeek_decomp p ws (t ++ ['.']) s hp hws1 hws2 (by simp) ht2' hs]
    rw [Option.map_some', pyStrip_all_nonspace]
    · rw [← List.append_assoc, stripTrailingDot_concat_dot]
    · intro c hc
      rcases List.mem_append.mp hc with h | h
      · exact httpsLit_nonspace c h
      · exact ht2' c h
  · rw [List.getLast?_append_of_ne_nil _ ht1]
    exact htd

/-- Claim C2 witness: the amended statement applied to the one-line
transcript "Take a peek over at https://w." (token ending in a single
period). -/
theorem c2_first_match_witness :
    extract_backend ["Take a peek over at https://w."]
      = some (String.mk (httpsLit ++ "w".data)) ∧
      (httpsLit ++ "w".data).getLast? ≠ some '.' :=
  c2_first_match ["Take a peek over at https://w."] [] [' '] "w".data []
    (by decide) (by decide) (by decide) (by decide) (by decide) (by decide) (by decide)
    (Or.inl rfl)

/-- Claim C3: a transcript in which the success-marker phrase occurs
nowhere yields the explicit no-domain result from both extraction
functions (both are total Lean functions, so no exception is possible),
and an extraction miss leaves the orchestrator's effective domain equal to
the synchronously reported one, deferring to the placeholder check and
polling. -/
theorem c3_extraction_miss :
    (∀ logs : List String, containsSub peekMarker (combineLogs logs) = false →
      extract_backend logs = none ∧ check_logs logs = none) ∧
    (∀ a : AttemptResult, extract_backend a.logLines = none →
      effectiveDomain a = a.domain) := by
  constructor
  · intro logs h
    rw [extract_backend, check_logs, searchPeek_none_of_no_marker _ h]
    exact ⟨rfl, rfl⟩
  · intro a h
    rw [effectiveDomain, h]

/-- Claim C3 witness: the theorem applied to a concrete transcript with
timestamps and decoration but no marker line. -/
theorem c3_extraction_miss_witness :
    extract_backend ["2026-01-11 18:12:57,792 [INFO] Uploading...", "⛅️ wrangler 4.58.0"]
      = none ∧
    check_logs ["2026-01-11 18:12:57,792 [INFO] Uploading...", "⛅️ wrangler 4.58.0"]
      = none :=
  c3_extraction_miss.1
    ["2026-01-11 18:12:57,792 [INFO] Uploading...", "⛅️ wrangler 4.58.0"] (by decide)

/-- Claim C10, counterexample: on a transcript whose matched URL token
ends in a period the two implementations disagree — check_logs keeps the
period, the backend extraction strips it. -/
theorem c10_counterexample :
    check_logs ["Take a peek over at https://y."] = some "https://y." ∧
      extract_backend ["Take a peek over at https://y."] = some "https://y" ∧
      ("https://y." : String) ≠ "https://y" := by
  exact ⟨by decide, by decide, by decide⟩

/-- Claim C10 (amended: the two implementations agree exactly on
transcripts whose stripped match does not end in a period; in general the
backend result is the check_logs result with one trailing period
removed): the module-level extraction of verify_backend_logic.py equals
check_logs of verify_route_logic.py followed by the single
trailing-period strip, and the two return the same value whenever the
check_logs result does not end in a period. -/
theorem c10_refinement :
    (∀ logs : List String,
      extract_backend logs
        = (check_logs logs).map (fun d => String.mk (stripTrailingDot d.data))) ∧
    (∀ (logs : List String) (d : String), check_logs logs = some d →
      d.data.getLast? ≠ some '.' → extract_backend logs = some d) := by
  have key : ∀ logs : List String,
      extract_backend logs
        = (check_logs logs).map (fun d => String.mk (stripTrailingDot d.data)) := by
    intro logs
    rw [extract_backend, check_logs]
    cases searchPeek (combineLogs logs) with
    | none => rfl
    | some g => rfl
  refine ⟨key, fun logs d hd hdot => ?_⟩
  rw [key, hd, Option.map_some', stripTrailingDot_eq_self _ hdot]

/-- Claim C10 witness: the agreement statement applied to a concrete
transcript whose matched token has no trailing period. -/
theorem c10_refinement_witness :
    extract_backend ["Take a peek over at https://z4.pages.dev done"]
      = some "https://z4.pages.dev" :=
  c10_refinement.2 ["Take a peek over at https://z4.pages.dev done"]
    "https://z4.pages.dev" (by decide) (by decide)

/-- Claim C4: the placeholder detector returns true exactly for the fixed
sentinel literal https://test.pages.dev and false for every other string
(in particular every other well-formed https:// string), and that
identical literal occurs in both of the code fragments the repository
requires — the synchronous deploy-response check and the polling
endpoint's check. -/
theorem c4_placeholder_detector :
    isPlaceholder placeholderSentinel = true ∧
    placeholderSentinel = "https://test.pages.dev" ∧
    (∀ d : String, d ≠ placeholderSentinel → isPlaceholder d = false) ∧
    ("if (domainData.domain === \"https://test.pages.dev\")" ∈ deployRouteChecks ∧
      containsSub placeholderSentinel.data
        "if (domainData.domain === \"https://test.pages.dev\")".data = true) ∧
    ("if (!domain || domain === \"https://test.pages.dev\")" ∈ domainRouteChecks ∧
      containsSub placeholderSentinel.data
        "if (!domain || domain === \"https://test.pages.dev\")".data = true) := by
  refine ⟨by decide, rfl, ?_, ⟨by decide, by decide⟩, ⟨by decide, by decide⟩⟩
  intro d h
  rw [isPlaceholder]
  exact beq_false_of_ne h

/-- Claim C4 witness: the detector rejects a concrete well-formed
https:// string distinct from the sentinel. -/
theorem c4_placeholder_detector_witness :
    isPlaceholder "https://example.com" = false :=
  c4_placeholder_detector.2.2.1 "https://example.com" (by decide)

/-- Claim C5: the auto-fix loop performs at most 15 attempts — a success
report always names an attempt number at most 15, and the outcome depends
only on attempts 1..15; if every attempt up to 15 fails the loop reports
terminal failure carrying the last attempt's error with no further
retries, and if attempts 1..14 fail while attempt 15 succeeds it reports
success with iteration 15, so the boundary holds in both directions.  The
cap is the literal 15 checked by verify_limits.py. -/
theorem c5_autofix_bounds :
    (∀ (deploy : Nat → AttemptResult) (i : Nat),
      autoFixLoop deploy = FixOutcome.success i → i ≤ 15) ∧
    (∀ deploy deploy' : Nat → AttemptResult,
      (∀ k, 1 ≤ k → k ≤ 15 → deploy k = deploy' k) →
      autoFixLoop deploy = autoFixLoop deploy') ∧
    (∀ deploy : Nat → AttemptResult,
      (∀ k, 1 ≤ k → k ≤ 15 → (deploy k).success = false) →
      autoFixLoop deploy = FixOutcome.failedTerminal (deploy 15).error) ∧
    (∀ deploy : Nat → AttemptResult,
      (∀ k, k ≤ 14 → (deploy k).success = false) → (deploy 15).success = true →
      autoFixLoop deploy = FixOutcome.success 15) ∧
    containsSub "15".data iterationCheckLit.data = true := by
  refine ⟨?_, ?_, ?_, ?_, by decide⟩
  · intro deploy i h
    have := autoFixGo_success_bound deploy 15 1 i h
    omega
  · intro d d' h
    exact autoFixGo_frame d d' 15 1 (fun k hk1 hk2 => h k hk1 (by omega))
  · intro d h
    exact autoFixGo_all_fail d 15 1 (by omega) (by omega) (by omega) h
  · intro d h hs
    exact autoFixGo_late_success d 15 1 (by omega) (by omega) (by omega) h hs

/-- Claim C5 witness: Scenario C — a deploy collaborator failing on
attempts 1..14 and succeeding on attempt 15 makes the loop report success
with iteration 15. -/
theorem c5_autofix_bounds_witness :
    autoFixLoop (fun i => ⟨i == 15, "https://real.example", [], some "build error"⟩)
      = FixOutcome.success 15 :=
  c5_autofix_bounds.2.2.2.1 (fun i => ⟨i == 15, "https://real.example", [], some "build error"⟩)
    (by decide) (by decide)

/-- Claim C6: a polling session issues at most 40 status queries, always
terminates in one of the three terminal outcomes (resolved, timed-out or
cancelled), and a status source answering the placeholder on every query
drives it to the timed-out outcome after exactly 40 queries.  The cap is
the literal 40 checked by verify_limits.py. -/
theorem c6_poller_bounds :
    (∀ (status : Nat → String) (cancel : Nat → Bool),
      pollQueries status cancel ≤ 40) ∧
    (∀ (status : Nat → String) (cancel : Nat → Bool),
      (∃ d, domainPoller status cancel = PollOutcome.resolved d) ∨
        domainPoller status cancel = PollOutcome.timedOut ∨
        domainPoller status cancel = PollOutcome.cancelled) ∧
    (∀ (status : Nat → String) (cancel : Nat → Bool),
      (∀ n, isPlaceholder (status n) = true) → (∀ n, cancel n = false) →
      domainPoller status cancel = PollOutcome.timedOut ∧
        pollQueries status cancel = 40) ∧
    containsSub "40".data attemptsCheckLit.data = true := by
  refine ⟨?_, ?_, ?_, by decide⟩
  · intro s c
    exact pollQueriesGo_le s c 40 1
  · intro s c
    cases h : domainPoller s c with
    | resolved d => exact Or.inl ⟨d, rfl⟩
    | timedOut => exact Or.inr (Or.inl rfl)
    | cancelled => exact Or.inr (Or.inr rfl)
  · intro s c hs hc
    exact pollGo_all_placeholder s c hs hc 40 1

/-- Claim C6 witness: Scenario D — 40 consecutive sentinel responses yield
the timed-out outcome with the query budget fully used. -/
theorem c6_poller_bounds_witness :
    domainPoller (fun _ => "https://test.pages.dev") (fun _ => false)
      = PollOutcome.timedOut ∧
    pollQueries (fun _ => "https://test.pages.dev") (fun _ => false) = 40 :=
  c6_poller_bounds.2.2.1 (fun _ => "https://test.pages.dev") (fun _ => false)
    (fun _ => rfl) (fun _ => rfl)

/-- Claim C7, counterexample: the synchronous response reports the
placeholder, but the log transcript carries the real URL; the orchestrator
of spec section 4.5 then records the extracted domain as resolved
immediately and starts no DomainPoller session (had it polled, it would
have resolved to the status source's distinct answer), contradicting the
claim that a placeholder synchronous domain always leads to a polling
session instead of a resolved report. -/
theorem c7_counterexample :
    orchestrate
      (fun _ => ⟨true, "https://test.pages.dev",
        ["✨ Deployment complete! Take a peek over at https://ca971c36.test-bdc.pages.dev"],
        none⟩)
      (fun _ => "https://other.example.com") (fun _ => false)
      = ⟨some (TerminalEvent.resolvedDomain "https://ca971c36.test-bdc.pages.dev"), false⟩ ∧
    isPlaceholder "https://test.pages.dev" = true := by
  exact ⟨by decide, by decide⟩

/-- Claim C7 (amended: on a placeholder synchronous domain the
orchestrator consults the log-extraction path and starts a DomainPoller
session exactly when the extracted-or-returned domain is still a
placeholder; a domain is reported resolved only when it fails the
placeholder check): whenever the effective domain after log consultation
is a placeholder a polling session is started, every resolved report
names a non-placeholder domain, and Scenario B with an extraction miss —
placeholder synchronous domain, no marker line, all-placeholder status
source — polls and reports timed-out rather than resolved. -/
theorem c7_orchestrator_placeholder :
    (∀ (deploy : Nat → AttemptResult) (status : Nat → String)
        (cancel : Nat → Bool) (i : Nat),
      autoFixLoop deploy = FixOutcome.success i →
      isPlaceholder (effectiveDomain (deploy i)) = true →
      (orchestrate deploy status cancel).polled = true) ∧
    (∀ (deploy : Nat → AttemptResult) (status : Nat → String)
        (cancel : Nat → Bool) (d : String),
      (orchestrate deploy status cancel).event = some (TerminalEvent.resolvedDomain d) →
      isPlaceholder d = false) ∧
    orchestrate (fun _ => ⟨true, "https://test.pages.dev", ["Uploading..."], none⟩)
      (fun _ => "https://test.pages.dev") (fun _ => false)
      = ⟨some TerminalEvent.timedOut, true⟩ := by
  exact ⟨orchestrate_polled_of_placeholder, orchestrate_resolved_not_placeholder, by decide⟩

/-- Claim C7 witness: a job whose synchronous domain is the placeholder
and whose transcript has no marker line leads the orchestrator to start a
polling session. -/
theorem c7_orchestrator_placeholder_witness :
    (orchestrate (fun _ => ⟨true, "https://test.pages.dev", ["Uploading..."], none⟩)
      (fun _ => "https://real.example") (fun _ => false)).polled = true :=
  c7_orchestrator_placeholder.1
    (fun _ => ⟨true, "https://test.pages.dev", ["Uploading..."], none⟩)
    (fun _ => "https://real.example") (fun _ => false) 1 (by decide) (by decide)

/-- Claim C8: a resolution is only ever emitted for a query processed
while cancellation was not requested; once cancellation is requested from
some tick on, any resolved outcome stems from a strictly earlier query —
in particular a session cancelled from the start never resolves even if
every response carries a real domain — and a second cancellation request
changes neither the flag nor the session outcome (idempotence). -/
theorem c8_cancellation :
    (∀ (status : Nat → String) (cancel : Nat → Bool) (rem n : Nat) (d : String),
      pollGo status cancel n rem = PollOutcome.resolved d →
      ∃ m, n ≤ m ∧ cancel m = false ∧ status m = d) ∧
    (∀ (status : Nat → String) (cancel : Nat → Bool) (k : Nat) (d : String),
      (∀ m, k ≤ m → cancel m = true) →
      domainPoller status cancel = PollOutcome.resolved d →
      ∃ m, 1 ≤ m ∧ m < k ∧ status m = d) ∧
    (∀ status : Nat → String,
      domainPoller status (fun _ => true) = PollOutcome.cancelled) ∧
    (∀ (cancel : Nat → Bool) (k n : Nat),
      requestCancel (requestCancel cancel k) k n = requestCancel cancel k n) ∧
    (∀ (status : Nat → String) (cancel : Nat → Bool) (k : Nat),
      domainPoller status (requestCancel (requestCancel cancel k) k)
        = domainPoller status (requestCancel cancel k)) := by
  refine ⟨?_, ?_, ?_, ?_, ?_⟩
  · intro s c rem n d h
    obtain ⟨m, h1, _, h3, _, h5⟩ := pollGo_resolved s c rem n d h
    exact ⟨m, h1, h3, h5⟩
  · intro s c k d hk h
    obtain ⟨m, h1, _, h3, _, h5⟩ := pollGo_resolved s c 40 1 d h
    refine ⟨m, h1, ?_, h5⟩
    by_contra hm
    rw [hk m (by omega)] at h3
    cases h3
  · intro s
    rfl
  · intro c k n
    simp [requestCancel, Bool.or_assoc]
  · intro s c k
    exact pollGo_congr s _ _ (fun m => by simp [requestCancel, Bool.or_assoc]) 40 1

/-- Claim C8 witness: with cancellation requested from tick 2 on and a
status source that always answers a real domain, a resolved outcome can
only come from tick 1. -/
theorem c8_cancellation_witness :
    ∃ m, 1 ≤ m ∧ m < 2 ∧ (fun _ : Nat => "https://real.example") m = "https://real.example" :=
  c8_cancellation.2.1 (fun _ => "https://real.example") (fun n => decide (2 ≤ n)) 2
    "https://real.example" (fun m hm => decide_eq_true hm) (by decide)

/-- Claim C9: for every behaviour of the collaborators, an auto-fix
success report names an attempt in 1..15, a polling session issues at most
40 queries, and the domain record is monotonic — recording into an
already-resolved record changes nothing (so resolved never reverts to
false and the placeholder-to-resolved transition happens at most once),
while a placeholder candidate never resolves a record. -/
theorem c9_invariants :
    (∀ (deploy : Nat → AttemptResult) (i : Nat),
      autoFixLoop deploy = FixOutcome.success i → 1 ≤ i ∧ i ≤ 15) ∧
    (∀ (status : Nat → String) (cancel : Nat → Bool),
      pollQueries status cancel ≤ 40) ∧
    (∀ (r : DomainRecord) (d : String), r.resolved = true → applyResolution r d = r) ∧
    (∀ (r : DomainRecord) (d : String), r.resolved = true →
      (applyResolution r d).resolved = true) ∧
    (∀ (r : DomainRecord) (d : String), r.resolved = false → isPlaceholder d = true →
      applyResolution r d = r) := by
  have h3 : ∀ (r : DomainRecord) (d : String), r.resolved = true →
      applyResolution r d = r := by
    intro r d h
    rw [applyResolution, if_pos h]
  refine ⟨?_, ?_, h3, ?_, ?_⟩
  · intro deploy i h
    have := autoFixGo_success_bound deploy 15 1 i h
    omega
  · intro s c
    exact pollQueriesGo_le s c 40 1
  · intro r d h
    rw [h3 r d h, h]
  · intro r d h hd
    rw [applyResolution, if_neg (by simp [h]), if_pos hd]

/-- Claim C9 witness: recording a further candidate into an
already-resolved record leaves it unchanged. -/
theorem c9_invariants_witness :
    applyResolution ⟨"https://a.pages.dev", true⟩ "https://b.pages.dev"
      = ⟨"https://a.pages.dev", true⟩ :=
  c9_invariants.2.2.1 ⟨"https://a.pages.dev", true⟩ "https://b.pages.dev" rfl
